import Mathlib

/-
  Verification development for the epsilon-game repository.

  The embedding models the core logic of the narrative engine:
  * the answer evaluator (src/utils.tsx, isCorrect),
  * the two-stage Fourier/harmonic puzzle (FourierPuzzle component),
  * the narrative state machine (SciFiTextGame.tsx: sceneMap, goTo, onSolve,
    progress) and the flag-selection policies of the puzzle-resolution paths.

  Modelling conventions:
  * JavaScript double-precision numbers are modelled as exact rationals.
    Rounding of decimal literals and of arithmetic is idealized away; none of
    the verified properties depends on a float rounding edge.  The rational
    operations used inside executable definitions are spelled with mkRat so
    that the kernel can evaluate them; bridging lemmas identify them with the
    standard field operations on the rationals.
  * JavaScript Number(string) is modelled as a partial function into JsNum,
    which carries the finite values as exact rationals together with the two
    infinities; the none of the Option plays the role of NaN, matching the
    !Number.isNaN gate of the source.  Literal conversion saturates to the
    infinities at the binary64 overflow threshold (so 1e999 is Infinity, as in
    the source); rounding of in-range values is the idealization above.  The
    grammar of Number is case-insensitive in every accepted character (decimal
    digits, the dot, the exponent marker e/E, the radix markers 0x/0X, 0o/0O,
    0b/0B, and hex digits), so those parts run on lowercased characters; the
    sole case-sensitive token, Infinity, is matched on the raw characters.
  * String.prototype.trim is modelled with the full JS WhiteSpace and
    LineTerminator character sets; String.prototype.toLowerCase is modelled on
    the ASCII range (full Unicode case mapping is out of scope).
  * Scene lookup goes through a JS object built by Object.fromEntries; a
    bracket access on it falls back to the members inherited from
    Object.prototype, which the truthiness test in goTo observes, so the model
    keeps the own-entry map and the inherited-key fallback separate.
-/

namespace EpsilonGame

set_option maxRecDepth 8192

/-! ## Kernel-computable rational arithmetic

`Rat.add`, `Rat.sub`, `Rat.mul` and `Rat.neg` are irreducible in Mathlib, so
definitions that must evaluate under `decide` use the following `mkRat`-based
forms; each is proved equal to the corresponding field operation. -/

def ratNeg (q : ℚ) : ℚ := mkRat (-q.num) q.den

def ratAdd (a b : ℚ) : ℚ := mkRat (a.num * b.den + b.num * a.den) (a.den * b.den)

def ratSub (a b : ℚ) : ℚ := mkRat (a.num * b.den - b.num * a.den) (a.den * b.den)

def ratMul (a b : ℚ) : ℚ := mkRat (a.num * b.num) (a.den * b.den)

/-- Model of Math.abs on the rationals. -/
def jsAbs (q : ℚ) : ℚ := if q < 0 then ratNeg q else q

lemma mkRat_eq_div (n : ℤ) (d : ℕ) : mkRat n d = (n : ℚ) / (d : ℚ) := by
  rw [Rat.mkRat_eq_divInt, Rat.divInt_eq_div]
  push_cast
  rfl

lemma den_cast_ne_zero (q : ℚ) : ((q.den : ℚ)) ≠ 0 := by
  exact_mod_cast q.den_ne_zero

lemma ratNeg_eq (q : ℚ) : ratNeg q = -q := by
  rw [ratNeg, mkRat_eq_div]
  push_cast
  rw [neg_div, Rat.num_div_den]

lemma ratAdd_eq (a b : ℚ) : ratAdd a b = a + b := by
  have ha : ((a.den : ℚ)) ≠ 0 := den_cast_ne_zero a
  have hb : ((b.den : ℚ)) ≠ 0 := den_cast_ne_zero b
  rw [ratAdd, mkRat_eq_div]
  conv_rhs => rw [← Rat.num_div_den a, ← Rat.num_div_den b]
  push_cast
  field_simp
  try ring

lemma ratSub_eq (a b : ℚ) : ratSub a b = a - b := by
  have ha : ((a.den : ℚ)) ≠ 0 := den_cast_ne_zero a
  have hb : ((b.den : ℚ)) ≠ 0 := den_cast_ne_zero b
  rw [ratSub, mkRat_eq_div]
  conv_rhs => rw [← Rat.num_div_den a, ← Rat.num_div_den b]
  push_cast
  field_simp
  try ring

lemma ratMul_eq (a b : ℚ) : ratMul a b = a * b := by
  rw [ratMul, mkRat_eq_div]
  push_cast
  rw [← div_mul_div_comm, Rat.num_div_den, Rat.num_div_den]

lemma jsAbs_eq (q : ℚ) : jsAbs q = |q| := by
  rw [jsAbs]
  split
  · rw [ratNeg_eq, abs_of_neg]
    assumption
  · rw [abs_of_nonneg]
    exact not_lt.mp (by assumption)

/-- Multiplication by an integer power of ten (used for the exponent part of a
numeric literal), in kernel-computable form. -/
def ratScalePow10 (q : ℚ) (ex : ℤ) : ℚ :=
  if 0 ≤ ex then ratMul q (mkRat ((10 : ℕ) ^ ex.toNat) 1)
  else ratMul q (mkRat 1 ((10 : ℕ) ^ (-ex).toNat))

lemma ratScalePow10_eq (q : ℚ) (ex : ℤ) : ratScalePow10 q ex = q * (10 : ℚ) ^ ex := by
  rw [ratScalePow10]
  split
  · rw [ratMul_eq, mkRat_eq_div]
    push_cast
    rw [div_one, ← zpow_natCast (10 : ℚ) ex.toNat, Int.toNat_of_nonneg (by assumption)]
  · rw [ratMul_eq, mkRat_eq_div]
    push_cast
    rw [one_div, ← zpow_natCast (10 : ℚ) (-ex).toNat, ← zpow_neg,
      Int.toNat_of_nonneg (by omega), neg_neg]

/-! ## Answer evaluator (src/utils.tsx) -/

/-- The characters stripped by the model of String.trim: the JS WhiteSpace
set (TAB, VT, FF, SP, NBSP, ZWNBSP and the Unicode Space_Separator category)
together with the LineTerminator set (LF, CR, LS, PS). -/
def isJsWhitespace (c : Char) : Bool :=
  c = ' ' || c = '\t' || c = '\n' || c = '\r' || c = '\x0B' || c = '\x0C' ||
  c.toNat = 0xA0 || c.toNat = 0x1680 ||
  (0x2000 ≤ c.toNat && c.toNat ≤ 0x200A) ||
  c.toNat = 0x2028 || c.toNat = 0x2029 || c.toNat = 0x202F ||
  c.toNat = 0x205F || c.toNat = 0x3000 || c.toNat = 0xFEFF

/-- Model of String.prototype.trim on character lists. -/
def jsTrim (cs : List Char) : List Char :=
  ((cs.dropWhile isJsWhitespace).reverse.dropWhile isJsWhitespace).reverse

/-- Model of String.prototype.toLowerCase (ASCII range). -/
def jsLowerChars (cs : List Char) : List Char :=
  cs.map Char.toLower

/-- Digit characters of the given radix (input already lowercased). -/
def radixDigitChars (b : ℕ) : List Char :=
  if b = 16 then "0123456789abcdef".data
  else if b = 8 then "01234567".data
  else "01".data

/-- Numeric value of one (lower-case) digit character: its index in the
hexadecimal digit alphabet. -/
def digitVal (c : Char) : ℕ :=
  (radixDigitChars 16).indexOf c

/-- Value of a digit string in the given radix. -/
def digitsVal (b : ℕ) (cs : List Char) : ℕ :=
  cs.foldl (fun acc c => acc * b + digitVal c) 0

/-- A nonempty all-digit string in the given radix, as a natural number. -/
def parseRadixNat (b : ℕ) (cs : List Char) : Option ℕ :=
  if cs ≠ [] ∧ cs.all (fun c => c ∈ radixDigitChars b) then some (digitsVal b cs)
  else none

/-- A nonempty decimal digit string, as a natural number. -/
def parseDecNat (cs : List Char) : Option ℕ :=
  if cs ≠ [] ∧ cs.all Char.isDigit then some (digitsVal 10 cs) else none

/-- Grammar rule StrUnsignedDecimalLiteral without the exponent part:
`digits [. digits]` or `. digits` or `digits .`; the value
`intpart + fracpart / 10 ^ fraclen` is assembled over a common denominator. -/
def jsParseMantissa (cs : List Char) : Option ℚ :=
  let ip := cs.takeWhile Char.isDigit
  let rest := cs.dropWhile Char.isDigit
  match rest with
  | [] => if ip = [] then none else some (mkRat (digitsVal 10 ip) 1)
  | '.' :: fp =>
      if fp.all Char.isDigit ∧ (ip ≠ [] ∨ fp ≠ []) then
        some (mkRat (digitsVal 10 ip * 10 ^ fp.length + digitsVal 10 fp) (10 ^ fp.length))
      else none
  | _ => none

/-- The exponent part after the marker: optional sign, then decimal digits. -/
def jsParseExp (cs : List Char) : Option ℤ :=
  match cs with
  | '+' :: ds => (parseDecNat ds).map (fun n => (n : ℤ))
  | '-' :: ds => (parseDecNat ds).map (fun n => -(n : ℤ))
  | ds => (parseDecNat ds).map (fun n => (n : ℤ))

/-- Grammar rule StrUnsignedDecimalLiteral: mantissa with an optional exponent part
(the input is already lowercased, so the marker is the character e). -/
def jsParseUnsignedDec (cs : List Char) : Option ℚ :=
  let mant := cs.takeWhile (fun c => c ≠ 'e')
  let rest := cs.dropWhile (fun c => c ≠ 'e')
  match rest with
  | [] => jsParseMantissa mant
  | _ :: expPart =>
      match jsParseMantissa mant, jsParseExp expPart with
      | some m, some ex => some (ratScalePow10 m ex)
      | _, _ => none

/-- The non-NaN values of a JS number as the source observes them: a finite
value (idealized as an exact rational) or one of the two infinities. -/
inductive JsNum where
  | finite (q : ℚ)
  | posInf
  | negInf
deriving DecidableEq, Repr

/-- The smallest magnitude at which round-to-nearest overflows binary64 to
Infinity: 2 ^ 1024 - 2 ^ 970 (half an ulp above the largest finite double).
Literal conversion saturates at this bound, as Number does. -/
def overflowBound : ℚ := mkRat ((2 ^ 1024 - 2 ^ 970 : ℕ)) 1

/-- The double obtained from the exact mathematical value of a literal:
saturate to an infinity past the overflow bound, keep the exact rational
otherwise (in-range rounding is idealized as exact). -/
def jsNumFromRat (q : ℚ) : JsNum :=
  if overflowBound ≤ q then JsNum.posInf
  else if q ≤ ratNeg overflowBound then JsNum.negInf
  else JsNum.finite q

/-- The part of a numeric literal after an optional sign: the case-sensitive
token Infinity (matched on the raw characters), or an unsigned decimal
literal (case-insensitive, hence parsed on lowercased characters), saturated
and negated per the sign. -/
def jsParseAfterSign (cs : List Char) (neg : Bool) : Option JsNum :=
  if cs = "Infinity".data then some (if neg then JsNum.negInf else JsNum.posInf)
  else (jsParseUnsignedDec (jsLowerChars cs)).map
    (fun q => jsNumFromRat (if neg then ratNeg q else q))

/-- Grammar rule StrNumericLiteral over the raw trimmed character list: the
empty string denotes 0; a sign is only allowed on decimal literals and
Infinity; the radix markers accept both cases but no sign. -/
def jsParseNumeric (cs : List Char) : Option JsNum :=
  match cs with
  | [] => some (JsNum.finite (mkRat 0 1))
  | '+' :: rest => jsParseAfterSign rest false
  | '-' :: rest => jsParseAfterSign rest true
  | '0' :: 'x' :: rest => (parseRadixNat 16 (jsLowerChars rest)).map
      (fun n => jsNumFromRat (mkRat n 1))
  | '0' :: 'X' :: rest => (parseRadixNat 16 (jsLowerChars rest)).map
      (fun n => jsNumFromRat (mkRat n 1))
  | '0' :: 'o' :: rest => (parseRadixNat 8 (jsLowerChars rest)).map
      (fun n => jsNumFromRat (mkRat n 1))
  | '0' :: 'O' :: rest => (parseRadixNat 8 (jsLowerChars rest)).map
      (fun n => jsNumFromRat (mkRat n 1))
  | '0' :: 'b' :: rest => (parseRadixNat 2 (jsLowerChars rest)).map
      (fun n => jsNumFromRat (mkRat n 1))
  | '0' :: 'B' :: rest => (parseRadixNat 2 (jsLowerChars rest)).map
      (fun n => jsNumFromRat (mkRat n 1))
  | _ => jsParseAfterSign cs false

/-- Model of Number(s) for an already-trimmed string s; none plays the role
of NaN, exactly the values the !Number.isNaN gate of the source rejects. -/
def jsNumberChars (cs : List Char) : Option JsNum :=
  jsParseNumeric cs

/-- The numeric-branch comparison Math.abs(na - nb) <= 1e-6 of the source on
non-NaN operands.  When an operand is an infinity the source computes NaN
(for Infinity minus Infinity of equal signs) or an infinity (every other
non-finite case), and both compare false against 1e-6, so the comparison
succeeds exactly on finite pairs within the tolerance. -/
def jsNumClose (x y : JsNum) : Bool :=
  match x, y with
  | JsNum.finite a, JsNum.finite b => decide (jsAbs (ratSub a b) ≤ mkRat 1 1000000)
  | _, _ => false

/-- Function isCorrect from src/utils.tsx: trim both strings; if both convert
to non-NaN numbers, compare with absolute tolerance 1e-6 (false whenever an
operand is non-finite); otherwise compare the trimmed strings
case-insensitively. -/
def isCorrect (userInput answer : String) : Bool :=
  let a := jsTrim userInput.data
  let b := jsTrim answer.data
  match jsNumberChars a, jsNumberChars b with
  | some na, some nb => jsNumClose na nb
  | _, _ => jsLowerChars a = jsLowerChars b

/-! ## Harmonic puzzle engine (the FourierPuzzle component)

The component state consists of the stage (1 = find the fundamental,
2 = select the harmonics), the slider value, the selected multipliers and the
feedback line; the long UI feedback strings are abbreviated to short tags,
which no verified property depends on.  `checkFundamental` and
`checkHarmonics` return the updated state together with the boolean outcome
passed to the onSolve callback, if any. -/

/-- CONFIG: the true fundamental frequency, 0.3 Hz. -/
def f0 : ℚ := mkRat 3 10

/-- CONFIG: the slider correctness tolerance, 0.02 Hz. -/
def freqTolerance : ℚ := mkRat 1 50

/-- CONFIG: the candidate multipliers offered in stage 2. -/
def harmonics : List ℕ := [1, 2, 3, 4, 5]

/-- CONFIG: the multipliers actually present in the composite signal. -/
def correctSet : List ℕ := [1, 3, 5]

structure FourierState where
  stage : ℕ
  freqGuess : ℚ
  selected : List ℕ
  feedback : String
deriving DecidableEq, Repr

/-- The initial component state: stage 1, slider at 0.5, empty selection. -/
def initialFourierState : FourierState :=
  { stage := 1, freqGuess := mkRat 1 2, selected := [], feedback := "" }

/-- Predicate nearCorrect from the component. -/
def nearCorrect (s : FourierState) : Bool :=
  decide (jsAbs (ratSub s.freqGuess f0) < freqTolerance)

/-- Function checkFundamental: on a near-correct guess move to stage 2, otherwise
only set failure feedback; no outcome is emitted to onSolve either way. -/
def checkFundamental (s : FourierState) : FourierState × Option Bool :=
  if nearCorrect s then ({ s with feedback := "yes", stage := 2 }, none)
  else ({ s with feedback := "not quite" }, none)

/-- The stage-2 selection update: toggle membership of a multiplier. -/
def toggleSel (sel : List ℕ) (n : ℕ) : List ℕ :=
  if n ∈ sel then sel.filter (fun x => x ≠ n) else sel ++ [n]

/-- Function toggleHarmonic from the component. -/
def toggleHarmonic (s : FourierState) (n : ℕ) : FourierState :=
  { s with selected := toggleSel s.selected n }

/-- Function checkHarmonics: the submission is correct when the selection has the
same length as the correct set and every selected multiplier is in it; the
boolean outcome is emitted to onSolve. -/
def checkHarmonics (s : FourierState) : FourierState × Option Bool :=
  let ok := s.selected.length = correctSet.length ∧
    ∀ n ∈ s.selected, n ∈ correctSet
  if ok then ({ s with feedback := "nailed it" }, some true)
  else ({ s with feedback := "close" }, some false)

/-- Function resetPuzzle from the component. -/
def resetPuzzle (s : FourierState) : FourierState :=
  { s with stage := 1, freqGuess := mkRat 1 2, selected := [], feedback := "" }

/-! ## Narrative data model (src/types.ts) -/

structure Choice where
  label : String
  next : String
deriving DecidableEq, Repr

structure Puzzle where
  type : String
  concept : String
  question : String
  answer : String
  success_next : String
  fail_next : String
  animation : Option String
  explanation : Option String
deriving DecidableEq, Repr

structure Scene where
  id : String
  title : String
  text : String
  choices : Option (List Choice)
  puzzle : Option Puzzle
  flags_set : Option (List String)
deriving DecidableEq, Repr

/-- The session state held by usePersistentState in SciFiTextGame.tsx. -/
structure GameState where
  current : String
  flags : List String
  history : List String
  complete : Bool
deriving DecidableEq, Repr

/-- The puzzle outcome delivered to onSolve. -/
structure Outcome where
  ok : Bool
  next : String
  flags : List String
deriving DecidableEq, Repr

/-! ## Narrative state machine (SciFiTextGame.tsx) -/

/-- Model of Object.fromEntries: build a string-keyed map by inserting the
entries in order, a later entry overwriting an earlier one with the same
key. -/
def fromEntries {α : Type} (entries : List (String × α)) : String → Option α :=
  entries.foldl (fun m kv => fun k => if k = kv.1 then some kv.2 else m k)
    (fun _ => none)

/-- Function sceneMap from SciFiTextGame.tsx:
Object.fromEntries(chapter.scenes.map(s => [s.id, s])). -/
def sceneMap (scenes : List Scene) (id : String) : Option Scene :=
  fromEntries (scenes.map (fun s => (s.id, s))) id

/-- The property keys every plain object inherits from Object.prototype (the
standard methods plus the Annex B accessors present in browsers).  A bracket
access with one of these keys on an object without an own entry of that name
yields the inherited member, which is a function (or Object.prototype itself
for the dunder-proto accessor) and therefore truthy. -/
def objectPrototypeKeys : List String :=
  ["constructor", "hasOwnProperty", "isPrototypeOf", "propertyIsEnumerable",
   "toLocaleString", "toString", "valueOf", "__proto__", "__defineGetter__",
   "__defineSetter__", "__lookupGetter__", "__lookupSetter__"]

/-- Truthiness of the bracket lookup sceneMap[id] in the source: an own entry
is a scene object, hence truthy; with no own entry the lookup still yields a
truthy inherited value when the id names an Object.prototype member;
otherwise it is undefined, which is falsy. -/
def sceneMapTruthy (scenes : List Scene) (id : String) : Bool :=
  (sceneMap scenes id).isSome || id ∈ objectPrototypeKeys

/-- Function goTo from SciFiTextGame.tsx: the single transition entry point.
The reserved terminal marker completes the chapter; an id for which the
bracket lookup is falsy is a no-op; any id for which it is truthy (a known
scene id, or an inherited Object.prototype key) becomes current and is
appended to the history. -/
def goTo (scenes : List Scene) (id : String) (s : GameState) : GameState :=
  if id = "chapter_end" then
    { s with current := id, complete := true, history := s.history ++ [id] }
  else if sceneMapTruthy scenes id then
    { s with current := id, history := s.history ++ [id] }
  else s

/-- One insertion step of Array.from(new Set(..)): keep the first occurrence
of each element, in insertion order. -/
def insertUnique {α : Type} [DecidableEq α] (acc : List α) (x : α) : List α :=
  if x ∈ acc then acc else acc ++ [x]

/-- Model of Array.from(new Set(l)): deduplicate keeping first occurrences. -/
def jsSetFrom {α : Type} [DecidableEq α] (l : List α) : List α :=
  l.foldl insertUnique []

/-- Function onSolve from SciFiTextGame.tsx: merge the outcome flags into the flag
set (deduplicated union, insertion order), then transition via goTo. -/
def onSolve (scenes : List Scene) (o : Outcome) (s : GameState) : GameState :=
  goTo scenes o.next { s with flags := jsSetFrom (s.flags ++ o.flags) }

/-- Model of Math.round on the rationals: floor of the value plus one half. -/
def jsRound (q : ℚ) : ℤ := (ratAdd q (mkRat 1 2)).floor

/-- Model of Math.min on the integers. -/
def jsMin (a b : ℤ) : ℤ := if a ≤ b then a else b

/-- The value new Set(history).size from the progress computation. -/
def historySetSize (history : List String) : ℕ := (jsSetFrom history).length

/-- Derived value progress from SciFiTextGame.tsx:
Math.min(100, Math.round((new Set(history).size / (scenes.length + 1)) * 100)). -/
def progressPct (history : List String) (scenes : List Scene) : ℤ :=
  jsMin 100 (jsRound (ratMul (mkRat (historySetSize history) (scenes.length + 1))
    (mkRat 100 1)))

/-! ## Flag selection on the three puzzle-resolution paths -/

/-- The outcome flags on the registry-dispatched path of SceneView
(src/src/SciFiTextGame.tsx, the PuzzleComp onSolve callback):
`ok ? scene.flags_set ?? [solved] : scene.flags_set ?? [failed]`. -/
def registryPathFlags (scene : Scene) (ok : Bool) : List String :=
  if ok then scene.flags_set.getD ["solved_puzzle"]
  else scene.flags_set.getD ["failed_puzzle"]

/-- The outcome flags on the generic question/answer path of SceneView
(src/src/SciFiTextGame.tsx, handleSubmit):
`ok ? scene.flags_set ?? [solved] : [failed]`. -/
def genericPathFlags (scene : Scene) (ok : Bool) : List String :=
  if ok then scene.flags_set.getD ["solved_puzzle"] else ["failed_puzzle"]

/-- The outcome flags in the monolithic variant of handleSubmit (the unnamed
single-file component): `ok ? scene.flags_set ?? [solved] : scene.flags_set ??
[failed]`. -/
def monolithPathFlags (scene : Scene) (ok : Bool) : List String :=
  if ok then scene.flags_set.getD ["solved_puzzle"]
  else scene.flags_set.getD ["failed_puzzle"]

/-! ## Shared demo chapter for concrete instances -/

/-- A minimal choice-only scene with the given id. -/
def mkPlainScene (i : String) : Scene :=
  { id := i, title := i, text := "", choices := some [], puzzle := none,
    flags_set := none }

/-- A four-scene demo chapter. -/
def demoScenes : List Scene :=
  [mkPlainScene "s1", mkPlainScene "s2", mkPlainScene "s3", mkPlainScene "s4"]

/-- A session state at the first demo scene. -/
def demoStart : GameState :=
  { current := "s1", flags := [], history := ["s1"], complete := false }

/-! ## Helper lemmas -/

section Helpers

variable {α : Type} [DecidableEq α]

lemma insertUnique_nodup {acc : List α} (h : acc.Nodup) (x : α) :
    (insertUnique acc x).Nodup := by
  rw [insertUnique]
  split
  · exact h
  · rename_i hx
    rw [List.nodup_append]
    exact ⟨h, List.nodup_singleton x, by simpa using hx⟩

lemma insertUnique_toFinset (acc : List α) (x : α) :
    (insertUnique acc x).toFinset = insert x acc.toFinset := by
  rw [insertUnique]
  split
  · rename_i hx
    rw [Finset.insert_eq_self.mpr (List.mem_toFinset.mpr hx)]
  · rw [List.toFinset_append]
    simp only [List.toFinset_cons, List.toFinset_nil, insert_emptyc_eq]
    rw [Finset.union_comm, ← Finset.insert_eq]

lemma foldl_insertUnique_nodup (l : List α) :
    ∀ acc : List α, acc.Nodup → (l.foldl insertUnique acc).Nodup := by
  induction l with
  | nil => intro acc h; exact h
  | cons x l ih => intro acc h; exact ih _ (insertUnique_nodup h x)

lemma foldl_insertUnique_toFinset (l : List α) :
    ∀ acc : List α, (l.foldl insertUnique acc).toFinset = acc.toFinset ∪ l.toFinset := by
  induction l with
  | nil => intro acc; simp
  | cons x l ih =>
      intro acc
      rw [List.foldl_cons, ih, insertUnique_toFinset]
      simp [Finset.insert_union, Finset.union_insert]

lemma jsSetFrom_nodup (l : List α) : (jsSetFrom l).Nodup :=
  foldl_insertUnique_nodup l [] List.nodup_nil

lemma jsSetFrom_toFinset (l : List α) : (jsSetFrom l).toFinset = l.toFinset := by
  rw [jsSetFrom, foldl_insertUnique_toFinset]
  simp

lemma jsSetFrom_length (l : List α) : (jsSetFrom l).length = l.toFinset.card := by
  rw [← jsSetFrom_toFinset l, List.toFinset_card_of_nodup (jsSetFrom_nodup l)]

end Helpers

lemma historySetSize_eq (history : List String) :
    historySetSize history = history.toFinset.card := by
  rw [historySetSize, jsSetFrom_length]

lemma mkRat_tol : (mkRat 1 1000000 : ℚ) = 1 / 1000000 := by
  rw [mkRat_eq_div]
  norm_num

lemma jsMin_eq (a b : ℤ) : jsMin a b = min a b := by
  rw [jsMin, min_def]

lemma jsRound_eq (q : ℚ) : jsRound q = ⌊q + 1 / 2⌋ := by
  rw [jsRound, ratAdd_eq]
  congr 1
  rw [mkRat_eq_div]
  norm_num

lemma goTo_flags (scenes : List Scene) (id : String) (s : GameState) :
    (goTo scenes id s).flags = s.flags := by
  rw [goTo]
  split
  · rfl
  · split <;> rfl

/-! ## Claim C1 -/

/-- Counterexample to C1 as stated: the string Infinity is numeric (Number
yields non-NaN Infinity) while its case variant INFINITY is not (NaN), yet
the two match through the case-insensitive string branch, so a numeric string
can match a non-numeric string. -/
theorem spec_C1_counterexample :
    jsNumberChars (jsTrim "Infinity".data) = some JsNum.posInf
    ∧ jsNumberChars (jsTrim "INFINITY".data) = none
    ∧ isCorrect "Infinity" "INFINITY" = true := by
  decide

/-- Claim C1, amended: `isCorrect` trims both strings; when both trimmed
values convert to finite numbers the result is true iff the absolute
difference of the values is at most 1e-6; when both convert to non-NaN
numbers but at least one is an infinity (the case-sensitive token Infinity,
or a literal past the double overflow bound such as 1e309) the numeric branch
always returns false; when at least one fails to convert the result is the
case-insensitive comparison of the trimmed strings — which can match a
numeric string with a non-numeric one exactly in the Infinity-case-variant
situation of the counterexample.  Blue matches blue, 10 does not match
ten. -/
theorem spec_C1 (u e : String) :
    (∀ x y, jsNumberChars (jsTrim u.data) = some (JsNum.finite x) →
      jsNumberChars (jsTrim e.data) = some (JsNum.finite y) →
      (isCorrect u e = true ↔ |x - y| ≤ 1 / 1000000))
    ∧ (∀ x y, jsNumberChars (jsTrim u.data) = some x →
      jsNumberChars (jsTrim e.data) = some y →
      (x = JsNum.posInf ∨ x = JsNum.negInf ∨ y = JsNum.posInf ∨ y = JsNum.negInf) →
      isCorrect u e = false)
    ∧ ((jsNumberChars (jsTrim u.data) = none ∨ jsNumberChars (jsTrim e.data) = none) →
      (isCorrect u e = true ↔ jsLowerChars (jsTrim u.data) = jsLowerChars (jsTrim e.data)))
    ∧ isCorrect "Blue" "blue" = true
    ∧ isCorrect "10" "ten" = false
    ∧ isCorrect "0.3000001" "0.3" = true
    ∧ isCorrect "0.31" "0.3" = false
    ∧ isCorrect "Infinity" "Infinity" = false
    ∧ isCorrect "1e308" "1e308" = true
    ∧ isCorrect "1e309" "1e309" = false := by
  refine ⟨?_, ?_, ?_, by decide, by decide, by decide, by decide, by decide, by decide,
    by decide⟩
  · intro x y hx hy
    simp only [isCorrect, hx, hy, jsNumClose]
    rw [decide_eq_true_iff, jsAbs_eq, ratSub_eq, mkRat_tol]
  · intro x y hx hy hinf
    simp only [isCorrect, hx, hy]
    cases x <;> cases y <;> simp_all [jsNumClose]
  · intro hnone
    rcases hu : jsNumberChars (jsTrim u.data) with _ | x <;>
      rcases he : jsNumberChars (jsTrim e.data) with _ | y
    · simp only [isCorrect, hu, he]
      exact decide_eq_true_iff
    · simp only [isCorrect, hu, he]
      exact decide_eq_true_iff
    · simp only [isCorrect, hu, he]
      exact decide_eq_true_iff
    · rw [hu, he] at hnone
      rcases hnone with h | h <;> exact absurd h (by simp)

/-- Witness for C1: a pair of equal Infinity literals enters the numeric
branch and compares false. -/
theorem spec_C1_witness : isCorrect "Infinity" "Infinity" = false :=
  (spec_C1 "Infinity" "Infinity").2.1 JsNum.posInf JsNum.posInf
    (by decide) (by decide) (Or.inl rfl)

/-! ## Claim C2 -/

/-- Claim C2 (code bug): contrary to the spec requirement that empty or
whitespace-only input must be treated as not numeric, the code coerces the
empty trimmed string to the number 0, so both comparisons against the
numeric answer 0 succeed. -/
theorem spec_C2 :
    isCorrect "" "0" = true
    ∧ isCorrect "   " "0" = true
    ∧ jsNumberChars (jsTrim "".data) = some (JsNum.finite (mkRat 0 1))
    ∧ (mkRat 0 1 : ℚ) = 0 := by
  refine ⟨by decide, by decide, by decide, ?_⟩
  rw [mkRat_eq_div]
  norm_num

/-! ## Claim C3 -/

lemma checkHarmonics_ok_iff (s : FourierState) (h : s.selected.Nodup) :
    (s.selected.length = correctSet.length ∧ ∀ n ∈ s.selected, n ∈ correctSet) ↔
      s.selected.toFinset = ({1, 3, 5} : Finset ℕ) := by
  constructor
  · rintro ⟨hlen, hmem⟩
    refine Finset.eq_of_subset_of_card_le ?_ ?_
    · intro n hn
      have := hmem n (List.mem_toFinset.mp hn)
      simp only [correctSet, List.mem_cons, List.not_mem_nil, or_false] at this
      simp only [Finset.mem_insert, Finset.mem_singleton]
      tauto
    · rw [List.toFinset_card_of_nodup h, hlen]
      decide
  · intro hf
    constructor
    · have hcard := List.toFinset_card_of_nodup h
      rw [hf] at hcard
      have h3 : ({1, 3, 5} : Finset ℕ).card = 3 := by decide
      simp only [correctSet, List.length_cons, List.length_nil]
      omega
    · intro n hn
      have : n ∈ s.selected.toFinset := List.mem_toFinset.mpr hn
      rw [hf] at this
      simp only [Finset.mem_insert, Finset.mem_singleton] at this
      simp only [correctSet, List.mem_cons, List.not_mem_nil, or_false]
      tauto

/-- Claim C3: in stage 2 the emitted outcome is success iff the submitted
selection, viewed as a set, equals the correct subset 1, 3, 5; any other
selection, proper subsets and supersets included, yields a failure outcome
(and the outcome is emitted in both cases). -/
theorem spec_C3 (s : FourierState) (h : s.selected.Nodup) :
    ((checkHarmonics s).2 = some true ↔ s.selected.toFinset = ({1, 3, 5} : Finset ℕ))
    ∧ ((checkHarmonics s).2 = some false ↔ s.selected.toFinset ≠ ({1, 3, 5} : Finset ℕ))
    ∧ (checkHarmonics { s with selected := [1, 3] }).2 = some false
    ∧ (checkHarmonics { s with selected := [1, 3, 5, 2] }).2 = some false
    ∧ (checkHarmonics { s with selected := [5, 1, 3] }).2 = some true := by
  refine ⟨?_, ?_, ?_, ?_, ?_⟩
  · rw [checkHarmonics]
    split
    · simpa using (checkHarmonics_ok_iff s h).mp (by assumption)
    · simpa using fun hf => absurd ((checkHarmonics_ok_iff s h).mpr hf) (by assumption)
  · rw [checkHarmonics]
    split
    · simpa using (checkHarmonics_ok_iff s h).mp (by assumption)
    · simpa using fun hf => absurd ((checkHarmonics_ok_iff s h).mpr hf) (by assumption)
  · norm_num [checkHarmonics, correctSet]
  · norm_num [checkHarmonics, correctSet]
  · norm_num [checkHarmonics, correctSet]

/-- Witness for C3: the exact selection 1, 3, 5 succeeds. -/
theorem spec_C3_witness :
    (checkHarmonics { initialFourierState with stage := 2, selected := [1, 3, 5] }).2
      = some true :=
  (spec_C3 { initialFourierState with stage := 2, selected := [1, 3, 5] }
    (by decide)).1.mpr (by decide)

/-! ## Claim C4 -/

lemma nearCorrect_iff (s : FourierState) :
    nearCorrect s = true ↔ |s.freqGuess - f0| < freqTolerance := by
  rw [nearCorrect, decide_eq_true_iff, jsAbs_eq, ratSub_eq]

/-- Claim C4: checking a fundamental-frequency guess moves the engine to
stage 2 iff the guess is strictly within the tolerance 0.02 of 0.3; no
boolean outcome is ever emitted by this check; on failure the state is
unchanged except for the feedback line (so retries are unlimited, there being
no attempt counter in the state); 0.31 transitions and 0.5 does not. -/
theorem spec_C4 (s : FourierState) (h : s.stage = 1) :
    ((checkFundamental s).1.stage = 2 ↔ |s.freqGuess - f0| < freqTolerance)
    ∧ (checkFundamental s).2 = none
    ∧ (¬ |s.freqGuess - f0| < freqTolerance →
        (checkFundamental s).1 = { s with feedback := "not quite" })
    ∧ f0 = 3 / 10
    ∧ freqTolerance = 1 / 50
    ∧ (checkFundamental { s with freqGuess := mkRat 31 100 }).1.stage = 2
    ∧ (checkFundamental { s with freqGuess := mkRat 1 2 }).1.stage = 1 := by
  have hval31 : decide (jsAbs (ratSub (mkRat 31 100) f0) < freqTolerance) = true := by
    decide
  have hval50 : decide (jsAbs (ratSub (mkRat 1 2) f0) < freqTolerance) = false := by
    decide
  have h31 : nearCorrect { s with freqGuess := mkRat 31 100 } = true := hval31
  have h50 : nearCorrect { s with freqGuess := mkRat 1 2 } = false := hval50
  refine ⟨?_, ?_, ?_, ?_, ?_, ?_, ?_⟩
  · rw [← nearCorrect_iff, checkFundamental]
    rcases hn : nearCorrect s with _ | _
    · rw [if_neg (by simp [hn])]
      simp [h]
    · rw [if_pos (by simp [hn])]
      simp
  · rw [checkFundamental]
    split <;> rfl
  · intro hfar
    rw [checkFundamental, if_neg]
    rw [← nearCorrect_iff] at hfar
    simpa using hfar
  · rw [f0, mkRat_eq_div]
    norm_num
  · rw [freqTolerance, mkRat_eq_div]
    norm_num
  · rw [checkFundamental, if_pos h31]
  · rw [checkFundamental, if_neg (by simp [h50])]
    simpa using h

/-- Witness for C4 at the initial component state. -/
theorem spec_C4_witness :
    (checkFundamental { initialFourierState with freqGuess := mkRat 31 100 }).1.stage = 2 :=
  (spec_C4 initialFourierState (by decide)).2.2.2.2.2.1

/-! ## Claim C10 -/

/-- Counterexample to C10 as stated: after the reachable toggle sequence
1, 3 the selection is the list 1, 3; toggling 1 twice more yields 3, 1,
which is not exactly the previous value (the members are the same but the
order differs). -/
theorem spec_C10_counterexample :
    toggleSel (toggleSel (toggleSel (toggleSel [] 1) 3) 1) 1
      ≠ toggleSel (toggleSel [] 1) 3 := by
  decide

/-- Claim C10, amended: starting from the empty selection every toggle
sequence keeps the selection duplicate-free; toggling the same multiplier
twice in succession returns the selection to the same set of members (exact
list equality holds when the multiplier was not selected, but when it was
already selected and not in last position, only set equality holds). -/
theorem spec_C10 :
    (∀ ts : List ℕ, (ts.foldl toggleSel []).Nodup)
    ∧ (∀ (sel : List ℕ) (n : ℕ), (toggleSel (toggleSel sel n) n).toFinset = sel.toFinset)
    ∧ (∀ (sel : List ℕ) (n : ℕ), n ∉ sel → toggleSel (toggleSel sel n) n = sel) := by
  have habsent : ∀ (sel : List ℕ) (n : ℕ), n ∉ sel → toggleSel (toggleSel sel n) n = sel := by
    intro sel n hn
    have hinner : toggleSel sel n = sel ++ [n] := by rw [toggleSel, if_neg hn]
    rw [hinner, toggleSel, if_pos (by simp)]
    rw [List.filter_append]
    rw [List.filter_eq_self.mpr (by
      intro a ha
      have hne : a ≠ n := fun hEq => hn (hEq ▸ ha)
      simpa using hne)]
    simp
  have hstep : ∀ (sel : List ℕ) (n : ℕ), sel.Nodup → (toggleSel sel n).Nodup := by
    intro sel n h
    rw [toggleSel]
    split
    · exact h.filter _
    · rw [List.nodup_append]
      exact ⟨h, List.nodup_singleton n, by simpa using (by assumption)⟩
  refine ⟨?_, ?_, habsent⟩
  · have : ∀ (ts : List ℕ) (acc : List ℕ), acc.Nodup → (ts.foldl toggleSel acc).Nodup := by
      intro ts
      induction ts with
      | nil => intro acc h; exact h
      | cons t ts ih => intro acc h; exact ih _ (hstep acc t h)
    intro ts
    exact this ts [] List.nodup_nil
  · intro sel n
    by_cases hn : n ∈ sel
    · have hinner : toggleSel sel n = sel.filter (fun x => x ≠ n) := by
        rw [toggleSel, if_pos hn]
      have hnotin : n ∉ sel.filter (fun x => x ≠ n) := by simp
      rw [hinner, toggleSel, if_neg hnotin]
      ext a
      simp only [List.mem_toFinset, List.mem_append, List.mem_filter, List.mem_singleton]
      by_cases han : a = n <;> simp [han, hn]
    · rw [habsent sel n hn]

/-- Witness for C10: toggling an unselected multiplier twice restores the
selection exactly. -/
theorem spec_C10_witness : toggleSel (toggleSel [2, 4] 1) 1 = [2, 4] :=
  spec_C10.2.2 [2, 4] 1 (by decide)

/-! ## Claim C5 -/

/-- Counterexample to C5 as stated: toString is neither the terminal marker
nor a known scene id of the demo chapter, yet the call transitions (the
bracket lookup finds the inherited Object.prototype method, which is truthy),
so the Progress value changes instead of being left untouched. -/
theorem spec_C5_counterexample :
    sceneMap demoScenes "toString" = none
    ∧ goTo demoScenes "toString" demoStart ≠ demoStart
    ∧ goTo demoScenes "toString" demoStart =
        { current := "toString", flags := [], history := ["s1", "toString"],
          complete := false } := by
  decide

/-- Claim C5, amended: transitioning to the reserved terminal marker sets
current to the marker, sets complete, and appends the marker to the history
exactly once per call; transitioning to a known scene id sets current to it
and appends it to the history; transitioning to an id that is neither the
marker nor a known scene id leaves the whole Progress value unchanged —
except when the id names an inherited Object.prototype member (toString,
valueOf, hasOwnProperty, constructor and the like), in which case the
truthiness check passes and the call sets current to the nonexistent id and
appends it to the history. -/
theorem spec_C5 (scenes : List Scene) (s : GameState) (id : String) :
    (goTo scenes "chapter_end" s =
      { current := "chapter_end", flags := s.flags,
        history := s.history ++ ["chapter_end"], complete := true })
    ∧ ((goTo scenes "chapter_end" s).history.count "chapter_end" =
        s.history.count "chapter_end" + 1)
    ∧ (id ≠ "chapter_end" → sceneMap scenes id = none →
        id ∉ objectPrototypeKeys → goTo scenes id s = s)
    ∧ (id ≠ "chapter_end" → (sceneMap scenes id).isSome →
        goTo scenes id s =
          { current := id, flags := s.flags,
            history := s.history ++ [id], complete := s.complete })
    ∧ (id ≠ "chapter_end" → sceneMap scenes id = none →
        id ∈ objectPrototypeKeys →
        goTo scenes id s =
          { current := id, flags := s.flags,
            history := s.history ++ [id], complete := s.complete }) := by
  refine ⟨?_, ?_, ?_, ?_, ?_⟩
  · rw [goTo, if_pos rfl]
  · rw [goTo, if_pos rfl]
    simp [List.count_append]
  · intro hne hnone hnokey
    rw [goTo, if_neg hne, if_neg (by simp [sceneMapTruthy, hnone, hnokey])]
  · intro hne hsome
    rw [goTo, if_neg hne, if_pos (by simp [sceneMapTruthy, hsome])]
  · intro hne hnone hkey
    rw [goTo, if_neg hne, if_pos (by simp [sceneMapTruthy, hkey])]

/-- Witness for C5: a transition to an ordinary unknown id is a no-op, a
transition to a known scene id advances, and a transition to an inherited
prototype key also advances. -/
theorem spec_C5_witness :
    goTo demoScenes "nowhere" demoStart = demoStart
    ∧ goTo demoScenes "s3" demoStart =
        { current := "s3", flags := [], history := ["s1", "s3"], complete := false }
    ∧ goTo demoScenes "valueOf" demoStart =
        { current := "valueOf", flags := [], history := ["s1", "valueOf"],
          complete := false } :=
  ⟨(spec_C5 demoScenes demoStart "nowhere").2.2.1 (by decide) (by decide) (by decide),
   (spec_C5 demoScenes demoStart "s3").2.2.2.1 (by decide) (by decide),
   (spec_C5 demoScenes demoStart "valueOf").2.2.2.2 (by decide) (by decide) (by decide)⟩

/-! ## Claim C6 -/

/-- Claim C6: resolving a puzzle outcome merges the outcome flags into the
flag set as a deduplicated union and then performs the chooseOption
transition on the next id; in particular resolving a failure outcome with
next s2 and flags failed_puzzle on a Progress with flags a yields the flag
set a, failed_puzzle without duplicates and current s2. -/
theorem spec_C6 (scenes : List Scene) (o : Outcome) (s : GameState) :
    (onSolve scenes o s =
      goTo scenes o.next { s with flags := jsSetFrom (s.flags ++ o.flags) })
    ∧ (onSolve scenes o s).flags = jsSetFrom (s.flags ++ o.flags)
    ∧ (onSolve scenes o s).flags.Nodup
    ∧ (onSolve scenes o s).flags.toFinset = s.flags.toFinset ∪ o.flags.toFinset
    ∧ onSolve demoScenes { ok := false, next := "s2", flags := ["failed_puzzle"] }
        { current := "s1", flags := ["a"], history := ["s1"], complete := false }
      = { current := "s2", flags := ["a", "failed_puzzle"], history := ["s1", "s2"],
          complete := false } := by
  refine ⟨rfl, ?_, ?_, ?_, by decide⟩
  · rw [onSolve, goTo_flags]
  · rw [onSolve, goTo_flags]
    exact jsSetFrom_nodup _
  · rw [onSolve, goTo_flags]
    show (jsSetFrom (s.flags ++ o.flags)).toFinset = _
    rw [jsSetFrom_toFinset, List.toFinset_append]

/-! ## Claim C7 -/

/-- A scene carrying an explicit flags_set list, for the C7 instances. -/
def flaggedScene : Scene :=
  { id := "s9", title := "flagged", text := "", choices := none, puzzle := none,
    flags_set := some ["scanned"] }

/-- Counterexample to C7 as stated: on the generic question/answer path of
SceneView a failed answer yields the default failure flag even when the scene
specifies an explicit flags_set list, so the explicit list is not granted
regardless of outcome on every path. -/
theorem spec_C7_counterexample :
    flaggedScene.flags_set = some ["scanned"]
    ∧ genericPathFlags flaggedScene false = ["failed_puzzle"]
    ∧ genericPathFlags flaggedScene false ≠ ["scanned"] := by
  decide

/-- Claim C7, amended: on the registry-dispatched path (and in the monolithic
variant of handleSubmit) an explicit flags_set list is granted regardless of
success or failure, with the defaults solved_puzzle and failed_puzzle when no
list is given; on the generic question/answer path of SceneView the explicit
list is granted only on success, and failure always yields failed_puzzle. -/
theorem spec_C7 (scene : Scene) (ok : Bool) :
    (∀ fs, scene.flags_set = some fs →
      registryPathFlags scene ok = fs
      ∧ monolithPathFlags scene ok = fs
      ∧ genericPathFlags scene ok = (if ok then fs else ["failed_puzzle"]))
    ∧ (scene.flags_set = none →
      registryPathFlags scene ok = (if ok then ["solved_puzzle"] else ["failed_puzzle"])
      ∧ monolithPathFlags scene ok = (if ok then ["solved_puzzle"] else ["failed_puzzle"])
      ∧ genericPathFlags scene ok = (if ok then ["solved_puzzle"] else ["failed_puzzle"])) := by
  constructor
  · intro fs hfs
    cases ok <;>
      simp [registryPathFlags, monolithPathFlags, genericPathFlags, hfs]
  · intro hnone
    cases ok <;>
      simp [registryPathFlags, monolithPathFlags, genericPathFlags, hnone]

/-- Witness for C7: the explicit list is granted on the registry path even on
failure. -/
theorem spec_C7_witness : registryPathFlags flaggedScene false = ["scanned"] :=
  ((spec_C7 flaggedScene false).1 ["scanned"] rfl).1

/-! ## Claim C8 -/

def dupSceneFirst : Scene :=
  { id := "a", title := "first", text := "", choices := none, puzzle := none,
    flags_set := none }

def dupSceneSecond : Scene :=
  { id := "a", title := "second", text := "", choices := none, puzzle := none,
    flags_set := none }

/-- Counterexample to C8 as stated: with two scenes sharing the id a, the
derived map returns the second (later) scene, not the first. -/
theorem spec_C8_counterexample :
    sceneMap [dupSceneFirst, dupSceneSecond] "a" = some dupSceneSecond
    ∧ dupSceneSecond ≠ dupSceneFirst := by
  decide

lemma fromEntries_append {α : Type} (es : List (String × α)) (p : String × α)
    (k : String) :
    fromEntries (es ++ [p]) k = if k = p.1 then some p.2 else fromEntries es k := by
  simp [fromEntries, List.foldl_append]

/-- Claim C8, amended: looking an id up in the derived scene-by-id map
returns the last scene with that id in the chapter list (later duplicate
entries override earlier ones, as Object.fromEntries inserts in order). -/
theorem spec_C8 (scenes : List Scene) (id : String) :
    sceneMap scenes id = scenes.reverse.find? (fun s => s.id == id)
    ∧ sceneMap [dupSceneFirst, dupSceneSecond] "a" = some dupSceneSecond := by
  refine ⟨?_, by decide⟩
  induction scenes using List.reverseRecOn with
  | nil => rfl
  | append_singleton es p ih =>
      rw [sceneMap, List.map_append]
      simp only [List.map_cons, List.map_nil]
      rw [fromEntries_append]
      simp only [List.map_cons, List.map_nil, List.reverse_append, List.reverse_cons,
        List.reverse_nil, List.nil_append, List.cons_append, List.find?]
      by_cases hk : id = p.id
      · rw [if_pos hk, show (p.id == id) = true from beq_iff_eq.mpr hk.symm]
      · rw [if_neg hk, show (p.id == id) = false from beq_eq_false_iff_ne.mpr
          (fun hEq => hk hEq.symm)]
        exact ih

/-! ## Claim C9 -/

/-- Claim C9: the derived progress percentage is
min(100, round(100 times the distinct-history count over the scene count plus
one)), with round realized as floor of the value plus one half; for the
history s1, s2, s1 over a four-scene chapter it is 40. -/
theorem spec_C9 (history : List String) (scenes : List Scene) :
    progressPct history scenes =
      min 100 ⌊100 * (history.toFinset.card : ℚ) / (scenes.length + 1) + 1 / 2⌋
    ∧ progressPct ["s1", "s2", "s1"] demoScenes = 40 := by
  refine ⟨?_, by decide⟩
  rw [progressPct, jsMin_eq, jsRound_eq]
  congr 2
  rw [ratMul_eq, mkRat_eq_div, mkRat_eq_div, historySetSize_eq]
  push_cast
  ring

end EpsilonGame
